import Mathlib

/-!
Verification development for the AION-CR modular training orchestrator
(`src/training/modular_training_implementation.py`).

The embedding is shallow: parameter tensors are flat lists of rationals
(the Python floats are modelled with exact rational arithmetic), a model
`state_dict` is an insertion-ordered association list from names to
tensors, and the mutable collection of live `nn.Module` objects is a heap
(a list of state dicts indexed by address), so that in-place mutation and
object identity are observable.  Fallible Python code is rendered in the
`Except PyError` monad; randomness (`torch.randn_like`) is supplied by an
explicit sampling oracle.
-/

/-- A parameter tensor, flattened to its list of scalar entries. -/
abbrev Tensor : Type := List ℚ

/-- A model state dict: insertion-ordered association list from parameter
names to tensors, as returned by `model.state_dict()`. -/
abbrev StateDict : Type := List (String × Tensor)

/-- The heap of live module objects; an address (list index) identifies one
`nn.Module`, whose current parameters are the stored state dict. -/
abbrev Heap : Type := List StateDict

/-- Python exceptions that the translated code can raise. -/
inductive PyError : Type where
  | valueError (msg : String)
  | zeroDivisionError
  | attributeError (msg : String)
  | runtimeError (msg : String)
deriving DecidableEq, BEq

/-- Dictionary lookup `d[key]` on a state dict (first matching entry). -/
def lookupSD (sd : StateDict) (k : String) : Option Tensor :=
  match sd with
  | [] => none
  | kv :: rest => if kv.1 = k then some kv.2 else lookupSD rest k

/-- Element-wise tensor addition (`torch` `+` on same-shape tensors). -/
def addT (a b : Tensor) : Tensor := List.zipWith (fun x y => x + y) a b

/-- Multiplication of a tensor by a scalar. -/
def scaleT (c : ℚ) (t : Tensor) : Tensor := t.map (fun x => c * x)

/-- Element-wise sum of a non-empty list of tensors (sum of the stacked
tensors along dimension 0); the empty case never arises in the code. -/
def sumT (ts : List Tensor) : Tensor :=
  match ts with
  | [] => []
  | t :: rest => rest.foldl addT t

/-- Whether `needle` occurs as a contiguous run inside `hay`; this is the
Python substring test `needle in key`. -/
def hasSub (needle : List Char) : List Char → Bool
  | [] => needle.isEmpty
  | c :: rest => List.isPrefixOf needle (c :: rest) || hasSub needle rest

/-- `ModularTrainer._federated_averaging`, key-gathering step: the list
comprehension `[m.state_dict()[key].float() for m in models]`; a missing
key is a Python `KeyError`. -/
def gatherTensors (heap : Heap) (k : String) : List ℕ → Except PyError (List Tensor)
  | [] => .ok []
  | m :: ms =>
    match lookupSD (heap.getD m []) k with
    | some t => do
      let rest ← gatherTensors heap k ms
      .ok (t :: rest)
    | none => .error (.runtimeError ("KeyError: " ++ k))

/-- `torch.stack(tensors).mean(dim=0)`: fails if the list is empty or the
shapes disagree, otherwise the element-wise arithmetic mean. -/
def stack_mean (ts : List Tensor) : Except PyError Tensor :=
  match ts with
  | [] => .error (.runtimeError "stack expects a non-empty TensorList")
  | t :: rest =>
    if rest.all (fun s => s.length == t.length) then
      .ok (scaleT (1 / ((t :: rest).length : ℚ)) (rest.foldl addT t))
    else
      .error (.runtimeError "stack expects each tensor to be equal size")

/-- The loop `for key in avg_state_dict.keys(): ...` of
`_federated_averaging`, producing the averaged state dict entry by entry. -/
def avgEntries (heap : Heap) (models : List ℕ) : StateDict → Except PyError StateDict
  | [] => .ok []
  | kv :: rest => do
    let ts ← gatherTensors heap kv.1 models
    let t ← stack_mean ts
    let tail ← avgEntries heap models rest
    .ok ((kv.1, t) :: tail)

/-- `ModularTrainer._federated_averaging(models)`: raises
`ValueError("No models to average")` on an empty input, otherwise takes
`avg_model = models[0]`, averages every tensor named in its state dict
across all models, loads the averaged dict back into `models[0]`
(mutating it) and returns that very module.  The returned pair is the
address of the returned module together with the heap after the call. -/
def federated_averaging (heap : Heap) (models : List ℕ) :
    Except PyError (ℕ × Heap) :=
  match models with
  | [] => .error (.valueError "No models to average")
  | m0 :: _ => do
    let avgDict ← avgEntries heap models (heap.getD m0 [])
    .ok (m0, heap.set m0 avgDict)

/-- The fixed sensitivity constant of
`ModularTrainer._apply_differential_privacy` (`sensitivity = 1.0`). -/
def SENSITIVITY : ℚ := 1

/-- The noised-key test of `_apply_differential_privacy`:
`"weight" in key or "bias" in key`. -/
def isNoisedKey (k : String) : Bool :=
  hasSub "weight".toList k.toList || hasSub "bias".toList k.toList

/-- The loop `for key in state_dict.keys(): ...` of
`_apply_differential_privacy`: keys whose name contains `weight` or `bias`
receive `torch.randn_like(t) * (sensitivity / epsilon)` added in place; at
such a key `epsilon = 0` raises `ZeroDivisionError` (Python float division
`1.0 / 0.0`) before any write to that key; all other keys pass through. -/
def dpEntries (noise : String → Tensor) (epsilon : ℚ) : StateDict → Except PyError StateDict
  | [] => .ok []
  | kv :: rest =>
    if isNoisedKey kv.1 then
      if epsilon = 0 then .error .zeroDivisionError
      else do
        let tail ← dpEntries noise epsilon rest
        .ok ((kv.1, addT kv.2 (scaleT (SENSITIVITY / epsilon) (noise kv.1))) :: tail)
    else do
      let tail ← dpEntries noise epsilon rest
      .ok (kv :: tail)

/-- `ModularTrainer._apply_differential_privacy(model, epsilon)`: perturbs
the module's state dict in place and returns the same module; `noise k` is
the standard-normal sample drawn by `torch.randn_like` for key `k`. -/
def apply_differential_privacy (noise : String → Tensor) (heap : Heap)
    (m : ℕ) (epsilon : ℚ) : Except PyError (ℕ × Heap) := do
  let sd ← dpEntries noise epsilon (heap.getD m [])
  .ok (m, heap.set m sd)

/-- Schema check used as a precondition of the averaging theorems: there is
a first model, and every tensor named in the first model's state dict is
present with the same number of entries in every model of the list. -/
def schemaOk (heap : Heap) (models : List ℕ) : Bool :=
  match models with
  | [] => false
  | m0 :: _ =>
    (heap.getD m0 []).all (fun kv =>
      models.all (fun m =>
        match lookupSD (heap.getD m []) kv.1 with
        | some t => t.length == kv.2.length
        | none => false))

/-- A linear layer `nn.Linear(inF, outF)`: weight matrix `w i j`
(row `i < outF`, column `j < inF`) and bias vector `b i`. -/
structure Linear : Type where
  inF : ℕ
  outF : ℕ
  w : ℕ → ℕ → ℚ
  b : ℕ → ℚ

/-- The pure matrix-vector action of a linear layer on an input of the
right width: entry `i` of the output is `b i + Σ_j w i j * x j`. -/
def Linear.applyVec (L : Linear) (x : Tensor) : Tensor :=
  (List.range L.outF).map (fun i =>
    L.b i + ((List.range L.inF).map (fun j => L.w i j * x.getD j 0)).sum)

/-- Calling a linear layer in `torch`: a shape mismatch between the input
width and `in_features` raises a runtime error. -/
def Linear.call (L : Linear) (x : Tensor) : Except PyError Tensor :=
  if x.length = L.inF then .ok (L.applyVec x)
  else .error (.runtimeError "mat1 and mat2 shapes cannot be multiplied")

/-- `torch.relu`: negative entries clipped to zero, element-wise. -/
def relu (t : Tensor) : Tensor := t.map (fun x => max x 0)

/-- `EnsembleModel`: the insertion-ordered mapping of member modules (each
member abstracted by the deterministic function taking the encoded input to
its `pooler_output` hidden-feature vector), the integration layer and the
final classifier. -/
structure EnsembleModel : Type where
  modules : List (String × (Tensor → Tensor))
  integration_layer : Linear
  classifier : Linear

/-- `EnsembleModel.__init__(modules)`: stores the module mapping and builds
`nn.Linear(len(modules) * 768, 768)` and `nn.Linear(768, 2)`; the freshly
initialized weights are supplied by the oracles `wi bi wc bc`.  The source
performs no emptiness check on `modules`. -/
def EnsembleModel.construct (mods : List (String × (Tensor → Tensor)))
    (wi : ℕ → ℕ → ℚ) (bi : ℕ → ℚ) (wc : ℕ → ℕ → ℚ) (bc : ℕ → ℚ) : EnsembleModel :=
  { modules := mods
  , integration_layer := { inF := mods.length * 768, outF := 768, w := wi, b := bi }
  , classifier := { inF := 768, outF := 2, w := wc, b := bc } }

/-- `ModuleIntegrator.create_ensemble(modules)`: simply constructs and
returns `EnsembleModel(modules)`; there is no failure path. -/
def create_ensemble (mods : List (String × (Tensor → Tensor)))
    (wi : ℕ → ℕ → ℚ) (bi : ℕ → ℚ) (wc : ℕ → ℕ → ℚ) (bc : ℕ → ℚ) :
    Except PyError EnsembleModel :=
  .ok (EnsembleModel.construct mods wi bi wc bc)

/-- The `pooler_output` of every member module, in the insertion order of
the mapping — the pooled vectors that the per-member loop of `forward` is
written to collect. -/
def pooledOutputs (mods : List (String × (Tensor → Tensor))) (x : Tensor) :
    List Tensor :=
  mods.map (fun nm => nm.2 x)

/-- `EnsembleModel.forward(input_ids, attention_mask)` as the source
actually executes.  The assignment `self.modules = nn.ModuleDict(modules)`
in `__init__` is intercepted by `nn.Module.__setattr__`, which stores the
dict only in the `_modules` table and never in the instance `__dict__`; the
read `self.modules` in `forward` therefore finds the inherited bound method
`nn.Module.modules` by ordinary class-attribute lookup (`__getattr__`,
torch's only route to `_modules` entries, is consulted only when that
lookup fails, which it does not).  Hence `self.modules.items()` raises
`AttributeError` before any member output is computed, on every ensemble
and every input. -/
def EnsembleModel.forward (_e : EnsembleModel) (_x : Tensor) :
    Except PyError Tensor :=
  .error (.attributeError "'method' object has no attribute 'items'")

/-- The forward pass as claim C5 describes it, written from the spec's
words for comparison with the code's `EnsembleModel.forward`: pooled
vectors in insertion order, concatenated, integration transform,
rectified-linear clipping, classifier transform. -/
def forwardAsSpecified (e : EnsembleModel) (x : Tensor) : Tensor :=
  e.classifier.applyVec (relu (e.integration_layer.applyVec
    ((pooledOutputs e.modules x).flatten)))

/-- Decision of `Except` success, the negation of raising. -/
def exceptOk {α : Type} (e : Except PyError α) : Bool :=
  match e with
  | .ok _ => true
  | .error _ => false

/-- The phases of one iteration of
`ContinuousLearningPipeline.run_training_loop`, named after the numbered
steps of the source: data collection (step 1), performance evaluation
(step 2), target selection (step 3), retraining (step 4), validation
(step 5), the deployment branch, and the normal inter-cycle sleep. -/
inductive Phase : Type where
  | collecting
  | evaluating
  | selecting
  | retraining
  | validating
  | deploying
  | sleeping
deriving DecidableEq, BEq

/-- The pipeline object state: `performance_history` and the trainer's
registry `trained_modules` (the only mutable state the loop touches). -/
structure PipelineState : Type where
  performance_history : List ℚ
  trained_modules : List (String × StateDict)
deriving DecidableEq

/-- `ContinuousLearningPipeline.identify_improvement_targets(performance)`:
the body is a stub that returns the empty list for every score. -/
def identify_improvement_targets (_performance : ℚ) : List String := []

/-- What the external collaborators do during one cycle: either some
awaited collaborator raises before the history append, or it raises after
the append (during retraining or the post-retraining evaluation), or both
performance evaluations return scores `pre` and `post` normally. -/
inductive CycleEvent : Type where
  | raisesEarly (e : PyError)
  | raisesLate (pre : ℚ) (e : PyError)
  | scores (pre post : ℚ)

/-- Observable outcome of one iteration of `run_training_loop`: the
pipeline state afterwards, the phases entered in order, the argument of the
`asyncio.sleep` call that ends the iteration, whether the loop exits, and
the log lines emitted. -/
structure CycleResult : Type where
  state : PipelineState
  phases : List Phase
  slept : ℕ
  exits : Bool
  log : List String

/-- The normal inter-cycle wait, `await asyncio.sleep(86400)`. -/
def CYCLE_SLEEP_SECONDS : ℕ := 86400

/-- The error cool-down wait of the `except` handler,
`await asyncio.sleep(3600)`. -/
def ERROR_SLEEP_SECONDS : ℕ := 3600

/-- Rendering of a raised exception in the `except` handler's log line
`logger.error(f"Error in training loop: {e}")`. -/
def pyErrorMessage : PyError → String
  | .valueError msg => "ValueError: " ++ msg
  | .zeroDivisionError => "ZeroDivisionError: float division by zero"
  | .attributeError msg => "AttributeError: " ++ msg
  | .runtimeError msg => "RuntimeError: " ++ msg

/-- One iteration of `ContinuousLearningPipeline.run_training_loop`,
translated from the `while True: try: ... except Exception: ...` body.
In the normal path the pre-retraining score is appended to the history and
the selection step consults `identify_improvement_targets`; a non-empty
target list would call the nonexistent attribute `get_module_config`
(an `AttributeError` caught by the handler), and a strictly improving score
enters the deployment branch, whose call to the nonexistent attribute
`deploy_updates` likewise raises an `AttributeError` that the handler
catches.  Every caught exception is logged and followed by the short
cool-down sleep; the loop never exits. -/
def run_cycle (ev : CycleEvent) (st : PipelineState) : CycleResult :=
  match ev with
  | .raisesEarly e =>
    { state := st
    , phases := [.collecting, .evaluating]
    , slept := ERROR_SLEEP_SECONDS
    , exits := false
    , log := ["Error in training loop: " ++ pyErrorMessage e] }
  | .raisesLate pre e =>
    { state := { st with performance_history := st.performance_history ++ [pre] }
    , phases := [.collecting, .evaluating, .selecting, .retraining, .validating]
    , slept := ERROR_SLEEP_SECONDS
    , exits := false
    , log := ["Error in training loop: " ++ pyErrorMessage e] }
  | .scores pre post =>
    let st1 : PipelineState :=
      { st with performance_history := st.performance_history ++ [pre] }
    match identify_improvement_targets pre with
    | _ :: _ =>
      { state := st1
      , phases := [.collecting, .evaluating, .selecting, .retraining]
      , slept := ERROR_SLEEP_SECONDS
      , exits := false
      , log := ["Error in training loop: " ++
          pyErrorMessage (.attributeError
            "'ContinuousLearningPipeline' object has no attribute 'get_module_config'")] }
    | [] =>
      if post > pre then
        { state := st1
        , phases := [.collecting, .evaluating, .selecting, .retraining,
            .validating, .deploying]
        , slept := ERROR_SLEEP_SECONDS
        , exits := false
        , log := ["Performance improved! Deploying updates...",
            "Error in training loop: " ++
            pyErrorMessage (.attributeError
              "'ContinuousLearningPipeline' object has no attribute 'deploy_updates'")] }
      else
        { state := st1
        , phases := [.collecting, .evaluating, .selecting, .retraining,
            .validating, .sleeping]
        , slept := CYCLE_SLEEP_SECONDS
        , exits := false
        , log := [] }

/-- The loop itself, iterated over a finite prefix of collaborator events:
it folds `run_cycle` and never stops early. -/
def run_training_loop (evs : List CycleEvent) (st : PipelineState) :
    PipelineState :=
  evs.foldl (fun s ev => (run_cycle ev s).state) st

/-- The element-wise mean tensor that `_federated_averaging` stores for
key `k`: the stacked sum of the models' tensors at `k`, divided by the
number of models. -/
def avgTensorAt (heap : Heap) (models : List ℕ) (k : String) : Tensor :=
  scaleT (1 / (models.length : ℚ))
    (sumT (models.map (fun m => (lookupSD (heap.getD m []) k).getD [])))

/-- Concrete fixture: a heap holding two single-tensor modules with the
same schema, parameter `w` valued `[0]` and `[2]`. -/
def twoModuleHeap : Heap := [[("w", [0])], [("w", [2])]]

/-- Concrete fixture: one module whose state dict has a tensor named
`weight` and a tensor named `alpha`. -/
def weightAlphaHeap : Heap := [[("weight", [1]), ("alpha", [1])]]

/-- Concrete fixture: one module whose only tensor name, `alpha`, contains
neither `weight` nor `bias`. -/
def alphaHeap : Heap := [[("alpha", [1])]]

/-- Concrete fixture: a sampling oracle that always returns `[2]`. -/
def constNoise : String → Tensor := fun _ => [2]

/-- Concrete fixture: an all-zero weight-matrix oracle. -/
def zeroW : ℕ → ℕ → ℚ := fun _ _ => 0

/-- Concrete fixture: an all-zero bias oracle. -/
def zeroB : ℕ → ℚ := fun _ => 0

/-- Concrete fixture: a member module whose pooled output is the zero
vector of width 768. -/
def constPool : Tensor → Tensor := fun _ => List.replicate 768 0

/-- Concrete fixture: a one-member module mapping for the ensemble. -/
def oneModuleList : List (String × (Tensor → Tensor)) := [("a", constPool)]

/-- Concrete fixture: the pipeline state right after construction, with an
empty performance history and an empty registry. -/
def emptyPipelineState : PipelineState :=
  { performance_history := [], trained_modules := [] }

lemma addT_length (a b : Tensor) : (addT a b).length = min a.length b.length := by
  simp [addT]

lemma addT_getD (a b : Tensor) (L i : ℕ) (ha : a.length = L) (hb : b.length = L)
    (hi : i < L) : (addT a b).getD i 0 = a.getD i 0 + b.getD i 0 := by
  have hab : (addT a b).length = L := by rw [addT_length, ha, hb, Nat.min_self]
  rw [List.getD_eq_getElem _ _ (by omega), List.getD_eq_getElem _ _ (by omega),
    List.getD_eq_getElem _ _ (by omega)]
  exact List.getElem_zipWith

lemma foldl_addT_spec (L : ℕ) (rest : List Tensor) :
    ∀ t : Tensor, t.length = L → (∀ s ∈ rest, s.length = L) →
      (rest.foldl addT t).length = L ∧
      ∀ i, i < L → (rest.foldl addT t).getD i 0 =
        t.getD i 0 + (rest.map (fun s => s.getD i 0)).sum := by
  induction rest with
  | nil => intro t ht _; exact ⟨ht, fun i _ => by simp⟩
  | cons s rest ih =>
    intro t ht hall
    have hs : s.length = L := hall s (by simp)
    have hts : (addT t s).length = L := by rw [addT_length, ht, hs, Nat.min_self]
    have hrest : ∀ u ∈ rest, u.length = L := fun u hu => hall u (by simp [hu])
    obtain ⟨hlen, hptw⟩ := ih (addT t s) hts hrest
    refine ⟨by simpa using hlen, fun i hi => ?_⟩
    have := hptw i hi
    simp only [List.foldl_cons] at this ⊢
    rw [this, addT_getD t s L i ht hs hi, List.map_cons, List.sum_cons]
    ring

lemma scaleT_length (c : ℚ) (t : Tensor) : (scaleT c t).length = t.length := by
  simp [scaleT]

lemma scaleT_getD (c : ℚ) (t : Tensor) (i : ℕ) (hi : i < t.length) :
    (scaleT c t).getD i 0 = c * t.getD i 0 := by
  rw [List.getD_eq_getElem _ _ (by simpa [scaleT] using hi),
    List.getD_eq_getElem _ _ hi]
  simp [scaleT]

lemma lookupSD_map_key (F : String → Tensor) (k : String) (sd : StateDict) :
    lookupSD (sd.map (fun kv => (kv.1, F kv.1))) k =
      (lookupSD sd k).map (fun _ => F k) := by
  induction sd with
  | nil => rfl
  | cons kv rest ih =>
    by_cases hk : kv.1 = k
    · simp [lookupSD, hk]
    · simp [lookupSD, hk, ih]

lemma lookupSD_mem (sd : StateDict) (k : String) (t : Tensor)
    (h : lookupSD sd k = some t) : (k, t) ∈ sd := by
  induction sd with
  | nil => simp [lookupSD] at h
  | cons kv rest ih =>
    by_cases hk : kv.1 = k
    · simp only [lookupSD, hk, if_pos] at h
      obtain ⟨k1, t1⟩ := kv
      simp only [Option.some.injEq] at h
      simp_all
    · simp only [lookupSD, hk, if_neg, ite_false] at h
      exact List.mem_cons_of_mem _ (ih h)

lemma heap_getD_set_self (l : Heap) (i : ℕ) (d : StateDict) (hi : i < l.length) :
    (l.set i d).getD i [] = d := by
  rw [List.getD_eq_getElem _ _ (by simpa using hi)]
  simp [List.getElem_set_self]

lemma heap_getD_set_ne (l : Heap) (i j : ℕ) (d : StateDict) (h : j ≠ i) :
    (l.set i d).getD j [] = l.getD j [] := by
  simp [List.getD_eq_getElem?_getD, List.getElem?_set_ne (fun he => h he.symm)]

lemma except_bind_ok {α β : Type} (a : α) (f : α → Except PyError β) :
    (do
      let x ← (Except.ok a : Except PyError α)
      f x) = f a := rfl

lemma gatherTensors_ok (heap : Heap) (k : String) (models : List ℕ)
    (h : ∀ m ∈ models, (lookupSD (heap.getD m []) k).isSome = true) :
    gatherTensors heap k models =
      .ok (models.map (fun m => (lookupSD (heap.getD m []) k).getD [])) := by
  induction models with
  | nil => rfl
  | cons m ms ih =>
    obtain ⟨t, ht⟩ := Option.isSome_iff_exists.mp (h m (by simp))
    have hrest := ih (fun m' hm' => h m' (by simp [hm']))
    simp only [gatherTensors, ht, hrest, except_bind_ok, List.map_cons, Option.getD_some]

lemma stack_mean_ok (t : Tensor) (rest : List Tensor)
    (h : ∀ s ∈ rest, s.length = t.length) :
    stack_mean (t :: rest) =
      .ok (scaleT (1 / (((t :: rest).length : ℕ) : ℚ)) (rest.foldl addT t)) := by
  have hall : rest.all (fun s => s.length == t.length) = true := by
    rw [List.all_eq_true]; intro s hs; simpa using h s hs
  simp [stack_mean, hall]

lemma avgEntries_ok (heap : Heap) (m0 : ℕ) (ms : List ℕ) (sd : StateDict)
    (h : ∀ kv ∈ sd, ∀ m ∈ m0 :: ms, ∃ t, lookupSD (heap.getD m []) kv.1 = some t ∧
      t.length = kv.2.length) :
    avgEntries heap (m0 :: ms) sd =
      .ok (sd.map (fun kv => (kv.1, avgTensorAt heap (m0 :: ms) kv.1))) := by
  induction sd with
  | nil => rfl
  | cons kv rest ih =>
    have hkv := h kv (by simp)
    have hgather : gatherTensors heap kv.1 (m0 :: ms) =
        .ok ((lookupSD (heap.getD m0 []) kv.1).getD [] ::
          ms.map (fun m => (lookupSD (heap.getD m []) kv.1).getD [])) := by
    -- gather yields the head tensor followed by the tail tensors
      have hx := gatherTensors_ok heap kv.1 (m0 :: ms) (fun m hm => by
        obtain ⟨t, ht, _⟩ := hkv m hm
        rw [ht]
        rfl)
      simpa using hx
    obtain ⟨t0, ht0, hl0⟩ := hkv m0 (by simp)
    have hlen : ∀ s ∈ ms.map (fun m => (lookupSD (heap.getD m []) kv.1).getD []),
        s.length = ((lookupSD (heap.getD m0 []) kv.1).getD []).length := by
      intro s hs
      obtain ⟨m, hm, hsm⟩ := List.mem_map.mp hs
      obtain ⟨t, ht, hl⟩ := hkv m (by simp [hm])
      rw [← hsm, ht, ht0]
      simp [hl, hl0]
    have hstack : stack_mean ((lookupSD (heap.getD m0 []) kv.1).getD [] ::
        ms.map (fun m => (lookupSD (heap.getD m []) kv.1).getD [])) =
        .ok (avgTensorAt heap (m0 :: ms) kv.1) := by
      rw [stack_mean_ok _ _ hlen]
      simp [avgTensorAt, sumT]
    have hrest := ih (fun kv' hkv' => h kv' (by simp [hkv']))
    simp only [avgEntries, hgather, hstack, hrest, except_bind_ok, List.map_cons]

lemma schemaOk_unpack (heap : Heap) (m0 : ℕ) (ms : List ℕ)
    (h : schemaOk heap (m0 :: ms) = true) :
    ∀ kv ∈ heap.getD m0 [], ∀ m ∈ m0 :: ms,
      ∃ t, lookupSD (heap.getD m []) kv.1 = some t ∧ t.length = kv.2.length := by
  intro kv hkv m hm
  simp only [schemaOk, List.all_eq_true] at h
  have hx := h kv hkv m hm
  cases hl : lookupSD (heap.getD m []) kv.1 with
  | none => rw [hl] at hx; simp at hx
  | some t => rw [hl] at hx; exact ⟨t, rfl, by simpa using hx⟩

lemma federated_averaging_ok (heap : Heap) (m0 : ℕ) (ms : List ℕ)
    (h : schemaOk heap (m0 :: ms) = true) :
    federated_averaging heap (m0 :: ms) =
      .ok (m0, heap.set m0 ((heap.getD m0 []).map
        (fun kv => (kv.1, avgTensorAt heap (m0 :: ms) kv.1)))) := by
  have hx := avgEntries_ok heap m0 ms (heap.getD m0 []) (schemaOk_unpack heap m0 ms h)
  simp only [federated_averaging, hx, except_bind_ok]

lemma avgTensorAt_spec (heap : Heap) (m0 : ℕ) (ms : List ℕ) (k : String) (L : ℕ)
    (h : ∀ m ∈ m0 :: ms, ∃ t, lookupSD (heap.getD m []) k = some t ∧ t.length = L) :
    (avgTensorAt heap (m0 :: ms) k).length = L ∧
    ∀ i, i < L → (avgTensorAt heap (m0 :: ms) k).getD i 0 =
      ((m0 :: ms).map (fun m => ((lookupSD (heap.getD m []) k).getD []).getD i 0)).sum
        / (((m0 :: ms).length : ℕ) : ℚ) := by
  obtain ⟨t0, ht0, hl0⟩ := h m0 (by simp)
  have hg0 : ((lookupSD (heap.getD m0 []) k).getD []).length = L := by
    rw [ht0]
    simpa using hl0
  have hlen : ∀ s ∈ ms.map (fun m => (lookupSD (heap.getD m []) k).getD []),
      s.length = L := by
    intro s hs
    obtain ⟨m, hm, hsm⟩ := List.mem_map.mp hs
    obtain ⟨t, ht, hl⟩ := h m (by simp [hm])
    rw [← hsm, ht]
    simpa using hl
  obtain ⟨hflen, hfptw⟩ := foldl_addT_spec L
    (ms.map (fun m => (lookupSD (heap.getD m []) k).getD []))
    ((lookupSD (heap.getD m0 []) k).getD []) hg0 hlen
  have hsum : sumT ((m0 :: ms).map (fun m => (lookupSD (heap.getD m []) k).getD [])) =
      (ms.map (fun m => (lookupSD (heap.getD m []) k).getD [])).foldl addT
        ((lookupSD (heap.getD m0 []) k).getD []) := by
    rw [List.map_cons]
    rfl
  constructor
  · rw [avgTensorAt, hsum, scaleT_length, hflen]
  · intro i hi
    rw [avgTensorAt, hsum, scaleT_getD _ _ i (by rw [hflen]; exact hi), hfptw i hi]
    rw [List.map_cons, List.sum_cons, List.map_map]
    rw [one_div_mul_eq_div]
    rfl

lemma except_bind_error {α β : Type} (e : PyError) (f : α → Except PyError β) :
    (do
      let x ← (Except.error e : Except PyError α)
      f x) = .error e := rfl

lemma dpEntries_eq (noise : String → Tensor) (epsilon : ℚ) (hε : epsilon ≠ 0)
    (sd : StateDict) :
    dpEntries noise epsilon sd = .ok (sd.map (fun kv =>
      if isNoisedKey kv.1 then
        (kv.1, addT kv.2 (scaleT (SENSITIVITY / epsilon) (noise kv.1)))
      else kv)) := by
  induction sd with
  | nil => rfl
  | cons kv rest ih =>
    by_cases hk : isNoisedKey kv.1 = true
    · simp only [dpEntries, hk, if_true, if_neg hε, ih, except_bind_ok, List.map_cons]
    · simp only [dpEntries, hk, Bool.false_eq_true, if_false, ih, except_bind_ok,
        List.map_cons]

lemma dpEntries_zero (noise : String → Tensor) (sd : StateDict)
    (h : ∃ kv ∈ sd, isNoisedKey kv.1 = true) :
    dpEntries noise 0 sd = .error .zeroDivisionError := by
  induction sd with
  | nil => simp at h
  | cons kv rest ih =>
    by_cases hk : isNoisedKey kv.1 = true
    · simp [dpEntries, hk]
    · have hrest : ∃ kv ∈ rest, isNoisedKey kv.1 = true := by
        obtain ⟨kv', hmem, hkv'⟩ := h
        rcases List.mem_cons.mp hmem with he | hmem'
        · exact absurd (he ▸ hkv') hk
        · exact ⟨kv', hmem', hkv'⟩
      simp only [dpEntries, hk, Bool.false_eq_true, if_false, ih hrest, except_bind_error]


/-- Claim C1 is false on the code: at a concrete two-module input,
`_federated_averaging` returns the first input module itself (address `0`,
a member of the input list) and overwrites that module's parameters in
place, so the inputs are not left unchanged and the result is not a fresh
module. -/
theorem average_mutation_counterexample :
    federated_averaging twoModuleHeap [0, 1] =
      .ok (0, [[("w", [1])], [("w", [2])]]) ∧
    (0 : ℕ) ∈ [0, 1] ∧
    twoModuleHeap.getD 0 [] ≠ [("w", [1])] := by
  refine ⟨?_, by decide, by decide⟩
  rw [federated_averaging_ok twoModuleHeap 0 [1] (by decide)]
  norm_num [twoModuleHeap, avgTensorAt, lookupSD, sumT, scaleT, addT, List.getD]

/-- Claim C1 (amended): for every non-empty sequence of schema-compatible
input modules, `average` returns the FIRST input module itself, whose
parameter tensors have been overwritten in place with the averaged values;
every input module other than the first is unchanged, and the returned
module is one of the inputs. -/
theorem average_returns_mutated_first_input (heap : Heap) (m0 : ℕ) (ms : List ℕ)
    (hm : m0 < heap.length) (h : schemaOk heap (m0 :: ms) = true) :
    ∃ sd', federated_averaging heap (m0 :: ms) = .ok (m0, heap.set m0 sd') ∧
      (heap.set m0 sd').getD m0 [] = sd' ∧
      (∀ a, a ≠ m0 → (heap.set m0 sd').getD a [] = heap.getD a []) ∧
      m0 ∈ m0 :: ms :=
  ⟨(heap.getD m0 []).map (fun kv => (kv.1, avgTensorAt heap (m0 :: ms) kv.1)),
    federated_averaging_ok heap m0 ms h, heap_getD_set_self heap m0 _ hm,
    fun a ha => heap_getD_set_ne heap m0 a _ ha, by simp⟩

/-- Witness for the amended claim C1 at the concrete two-module heap. -/
theorem average_returns_mutated_first_input_witness :
    (0 < twoModuleHeap.length ∧ schemaOk twoModuleHeap [0, 1] = true) ∧
    (∃ sd', federated_averaging twoModuleHeap [0, 1] = .ok (0, twoModuleHeap.set 0 sd') ∧
      (twoModuleHeap.set 0 sd').getD 0 [] = sd' ∧
      (∀ a, a ≠ 0 → (twoModuleHeap.set 0 sd').getD a [] = twoModuleHeap.getD a []) ∧
      (0 : ℕ) ∈ [0, 1]) :=
  ⟨⟨by decide, by decide⟩,
    average_returns_mutated_first_input twoModuleHeap 0 [1] (by decide) (by decide)⟩

/-- Claim C2: for every non-empty sequence of modules sharing a parameter
schema, every named tensor of the module returned by `average` is the
element-wise arithmetic mean of the corresponding tensors of all inputs,
each input weighted equally. -/
theorem average_elementwise_mean (heap : Heap) (m0 : ℕ) (ms : List ℕ)
    (hm : m0 < heap.length) (h : schemaOk heap (m0 :: ms) = true) :
    ∃ hp', federated_averaging heap (m0 :: ms) = .ok (m0, hp') ∧
      ∀ k t0, lookupSD (heap.getD m0 []) k = some t0 →
        ∃ r, lookupSD (hp'.getD m0 []) k = some r ∧ r.length = t0.length ∧
          ∀ i, i < t0.length → r.getD i 0 =
            ((m0 :: ms).map (fun m =>
              ((lookupSD (heap.getD m []) k).getD []).getD i 0)).sum
              / (((m0 :: ms).length : ℕ) : ℚ) := by
  refine ⟨_, federated_averaging_ok heap m0 ms h, ?_⟩
  intro k t0 hk
  rw [heap_getD_set_self heap m0 _ hm, lookupSD_map_key, hk, Option.map_some']
  have hmem : (k, t0) ∈ heap.getD m0 [] := lookupSD_mem _ _ _ hk
  have hx := schemaOk_unpack heap m0 ms h (k, t0) hmem
  obtain ⟨hlen, hptw⟩ := avgTensorAt_spec heap m0 ms k t0.length hx
  exact ⟨avgTensorAt heap (m0 :: ms) k, rfl, hlen, hptw⟩

/-- Witness for claim C2 at the concrete two-module heap. -/
theorem average_elementwise_mean_witness :
    (0 < twoModuleHeap.length ∧ schemaOk twoModuleHeap [0, 1] = true) ∧
    (∃ hp', federated_averaging twoModuleHeap [0, 1] = .ok (0, hp') ∧
      ∀ k t0, lookupSD (twoModuleHeap.getD 0 []) k = some t0 →
        ∃ r, lookupSD (hp'.getD 0 []) k = some r ∧ r.length = t0.length ∧
          ∀ i, i < t0.length → r.getD i 0 =
            (([0, 1] : List ℕ).map (fun m =>
              ((lookupSD (twoModuleHeap.getD m []) k).getD []).getD i 0)).sum
              / (((([0, 1] : List ℕ).length : ℕ)) : ℚ)) :=
  ⟨⟨by decide, by decide⟩,
    average_elementwise_mean twoModuleHeap 0 [1] (by decide) (by decide)⟩

/-- Claim C3 is false on the code: at a concrete module whose only tensor
is named `alpha`, `_apply_differential_privacy` with `epsilon = 1` returns
the module with that tensor unperturbed, although the sampled noise is
nonzero — the loop only perturbs tensors whose name contains `weight` or
`bias`. -/
theorem apply_privacy_skips_tensor_counterexample :
    apply_differential_privacy constNoise alphaHeap 0 1 = .ok (0, alphaHeap) ∧
    addT [1] (scaleT (SENSITIVITY / 1) (constNoise "alpha")) ≠ [1] := by
  have hα : isNoisedKey "alpha" = false := by decide
  constructor
  · simp only [apply_differential_privacy, dpEntries_eq constNoise 1 one_ne_zero,
      except_bind_ok]
    simp [alphaHeap, hα, List.getD]
  · norm_num [addT, scaleT, SENSITIVITY, constNoise]

/-- Claim C3 (amended): for every module and strictly positive `epsilon`,
`apply_privacy` adds the sampled zero-mean Gaussian noise, scaled by
`sensitivity / epsilon` with sensitivity fixed at `1.0`, element-wise to
exactly those parameter tensors whose NAME contains `weight` or `bias`;
all other tensors are left unperturbed; the module is mutated in place and
that same module is returned. -/
theorem apply_privacy_noises_weight_and_bias_only (noise : String → Tensor)
    (heap : Heap) (m : ℕ) (epsilon : ℚ) (hm : m < heap.length) (hε : 0 < epsilon) :
    SENSITIVITY = 1 ∧
    ∃ hp', apply_differential_privacy noise heap m epsilon = .ok (m, hp') ∧
      (∀ a, a ≠ m → hp'.getD a [] = heap.getD a []) ∧
      hp'.getD m [] = (heap.getD m []).map (fun kv =>
        if isNoisedKey kv.1 then
          (kv.1, addT kv.2 (scaleT (SENSITIVITY / epsilon) (noise kv.1)))
        else kv) := by
  refine ⟨rfl, heap.set m ((heap.getD m []).map (fun kv =>
    if isNoisedKey kv.1 then
      (kv.1, addT kv.2 (scaleT (SENSITIVITY / epsilon) (noise kv.1)))
    else kv)), ?_, fun a ha => heap_getD_set_ne heap m a _ ha,
    heap_getD_set_self heap m _ hm⟩
  simp only [apply_differential_privacy, dpEntries_eq noise epsilon (ne_of_gt hε),
    except_bind_ok]

/-- Witness for the amended claim C3 at a concrete module with a `weight`
tensor and an `alpha` tensor. -/
theorem apply_privacy_noises_weight_and_bias_only_witness :
    (0 < weightAlphaHeap.length ∧ (0 : ℚ) < 1) ∧
    (SENSITIVITY = 1 ∧
    ∃ hp', apply_differential_privacy constNoise weightAlphaHeap 0 1 = .ok (0, hp') ∧
      (∀ a, a ≠ 0 → hp'.getD a [] = weightAlphaHeap.getD a []) ∧
      hp'.getD 0 [] = (weightAlphaHeap.getD 0 []).map (fun kv =>
        if isNoisedKey kv.1 then
          (kv.1, addT kv.2 (scaleT (SENSITIVITY / 1) (constNoise kv.1)))
        else kv)) :=
  ⟨⟨by decide, by norm_num⟩,
    apply_privacy_noises_weight_and_bias_only constNoise weightAlphaHeap 0 1
      (by decide) (by norm_num)⟩

/-- Claim C4 is false on the code: there is no epsilon validation at all.
At a concrete module, `epsilon = -1` succeeds (returning the module with
negatively scaled noise added to its `weight` tensor), and `epsilon = 0`
raises `ZeroDivisionError` from the Python division `sensitivity / epsilon`
rather than any parameter-validation error. -/
theorem apply_privacy_epsilon_counterexample :
    apply_differential_privacy constNoise weightAlphaHeap 0 (-1) =
      .ok (0, [[("weight", [-1]), ("alpha", [1])]]) ∧
    apply_differential_privacy constNoise weightAlphaHeap 0 0 =
      .error .zeroDivisionError := by
  have hw : isNoisedKey "weight" = true := by decide
  have hα : isNoisedKey "alpha" = false := by decide
  constructor
  · simp only [apply_differential_privacy, dpEntries_eq constNoise (-1) (by norm_num),
      except_bind_ok]
    simp [weightAlphaHeap, hw, hα, List.getD, SENSITIVITY, addT, scaleT, constNoise]
    norm_num
  · have hz := dpEntries_zero constNoise (weightAlphaHeap.getD 0 [])
      ⟨("weight", [1]), by decide, hw⟩
    simp only [apply_differential_privacy, hz, except_bind_error]

/-- Claim C4 (amended): `apply_privacy` performs no validation of
`epsilon`: every negative `epsilon` succeeds (the Gaussian noise is scaled
by `sensitivity / epsilon`, a negative scale), and `epsilon = 0` fails with
`ZeroDivisionError` whenever the module has a tensor whose name contains
`weight` or `bias`; no `InvalidParameterError` is ever raised. -/
theorem apply_privacy_no_epsilon_validation (noise : String → Tensor)
    (heap : Heap) (m : ℕ) (epsilon : ℚ) :
    (epsilon < 0 → ∃ out, apply_differential_privacy noise heap m epsilon = .ok out) ∧
    ((∃ kv ∈ heap.getD m [], isNoisedKey kv.1 = true) →
      apply_differential_privacy noise heap m 0 = .error .zeroDivisionError) := by
  constructor
  · intro hneg
    exact ⟨(m, heap.set m ((heap.getD m []).map (fun kv =>
      if isNoisedKey kv.1 then
        (kv.1, addT kv.2 (scaleT (SENSITIVITY / epsilon) (noise kv.1)))
      else kv))),
      by simp only [apply_differential_privacy,
        dpEntries_eq noise epsilon (ne_of_lt hneg), except_bind_ok]⟩
  · intro hex
    simp only [apply_differential_privacy, dpEntries_zero noise _ hex, except_bind_error]

/-- Witness for the amended claim C4 at a concrete module. -/
theorem apply_privacy_no_epsilon_validation_witness :
    ((-1 : ℚ) < 0 ∧ (∃ kv ∈ weightAlphaHeap.getD 0 [], isNoisedKey kv.1 = true)) ∧
    (∃ out, apply_differential_privacy constNoise weightAlphaHeap 0 (-1) = .ok out) ∧
    apply_differential_privacy constNoise weightAlphaHeap 0 0 =
      .error .zeroDivisionError :=
  ⟨⟨by norm_num, ⟨("weight", [1]), by decide, by decide⟩⟩,
    (apply_privacy_no_epsilon_validation constNoise weightAlphaHeap 0 (-1)).1
      (by norm_num),
    (apply_privacy_no_epsilon_validation constNoise weightAlphaHeap 0 (-1)).2
      ⟨("weight", [1]), by decide, by decide⟩⟩

/-- Claim C5 names intended behavior the code never exhibits: because the
attribute name `self.modules` shadows the inherited `nn.Module.modules`
method, `forward` raises `AttributeError` at `self.modules.items()` on
every ensemble and every input, instead of computing the specified pooled
concatenation, integration, rectified-linear and classifier pipeline; at
the concrete one-member ensemble with the empty encoding, the code yields
the error where the specified pipeline yields logits. -/
theorem ensemble_forward_always_raises :
    (∀ (e : EnsembleModel) (x : Tensor),
      e.forward x = .error (.attributeError "'method' object has no attribute 'items'")) ∧
    (EnsembleModel.construct oneModuleList zeroW zeroB zeroW zeroB).forward [] ≠
      .ok (forwardAsSpecified
        (EnsembleModel.construct oneModuleList zeroW zeroB zeroW zeroB) []) :=
  ⟨fun _ _ => rfl, fun h => Except.noConfusion h⟩

/-- Claim C6 is false on the code: `create_ensemble` with an empty module
mapping succeeds — `EnsembleModel.__init__` performs no emptiness check
(`nn.ModuleDict({})` and `nn.Linear(0, 768)` both construct normally). -/
theorem compose_empty_counterexample :
    exceptOk (create_ensemble [] zeroW zeroB zeroW zeroB) = true := rfl

/-- Claim C6 (amended): composing an empty module mapping does not fail;
it returns an ensemble with no member modules whose integration layer has
input width `0 * 768 = 0`. -/
theorem compose_empty_succeeds (wi : ℕ → ℕ → ℚ) (bi : ℕ → ℚ)
    (wc : ℕ → ℕ → ℚ) (bc : ℕ → ℚ) :
    create_ensemble [] wi bi wc bc = .ok (EnsembleModel.construct [] wi bi wc bc) ∧
    (EnsembleModel.construct [] wi bi wc bc).modules = [] ∧
    (EnsembleModel.construct [] wi bi wc bc).integration_layer.inF = 0 :=
  ⟨rfl, rfl, rfl⟩

/-- Claim C7: averaging an empty sequence of modules fails; the source
raises `ValueError("No models to average")`, the concrete exception that
realizes the design's `EmptyInputError`. -/
theorem average_empty_raises (heap : Heap) :
    federated_averaging heap [] = .error (.valueError "No models to average") := rfl

/-- Claim C8: in a cycle where both performance evaluations return, the
`DEPLOYING` phase is entered exactly when the post-retraining score
strictly exceeds the pre-retraining score; cycles in which a collaborator
raises never enter `DEPLOYING`. -/
theorem deploy_iff_strict_improvement (pre post : ℚ) (st : PipelineState)
    (e : PyError) :
    ((run_cycle (.scores pre post) st).phases.contains .deploying) =
      decide (post > pre) ∧
    ((run_cycle (.raisesEarly e) st).phases.contains .deploying) = false ∧
    (∀ q : ℚ, ((run_cycle (.raisesLate q e) st).phases.contains .deploying) = false) := by
  refine ⟨?_, rfl, fun q => rfl⟩
  by_cases hp : post > pre
  · have hφ : (run_cycle (.scores pre post) st).phases =
        [.collecting, .evaluating, .selecting, .retraining, .validating, .deploying] := by
      simp [run_cycle, identify_improvement_targets, hp]
    rw [hφ, decide_eq_true hp]
    rfl
  · have hφ : (run_cycle (.scores pre post) st).phases =
        [.collecting, .evaluating, .selecting, .retraining, .validating, .sleeping] := by
      simp [run_cycle, identify_improvement_targets, hp]
    rw [hφ, decide_eq_false hp]
    rfl

/-- Claim C9: every exception a collaborator raises inside a cycle is
logged, followed by the error cool-down sleep of 3600 seconds — strictly
shorter than the normal inter-cycle sleep of 86400 seconds — and the loop
re-enters the next cycle: no event whatsoever makes the loop exit. -/
theorem loop_error_cooldown_retry (e : PyError) (q : ℚ) (st : PipelineState) :
    (run_cycle (.raisesEarly e) st).slept = ERROR_SLEEP_SECONDS ∧
    (run_cycle (.raisesLate q e) st).slept = ERROR_SLEEP_SECONDS ∧
    (run_cycle (.raisesEarly e) st).log =
      ["Error in training loop: " ++ pyErrorMessage e] ∧
    (run_cycle (.raisesLate q e) st).log =
      ["Error in training loop: " ++ pyErrorMessage e] ∧
    ERROR_SLEEP_SECONDS < CYCLE_SLEEP_SECONDS ∧
    (∀ ev : CycleEvent, (run_cycle ev st).exits = false) := by
  refine ⟨rfl, rfl, rfl, rfl, by decide, ?_⟩
  intro ev
  cases ev with
  | raisesEarly e => rfl
  | raisesLate q e => rfl
  | scores pre post =>
    by_cases hp : post > pre
    · simp [run_cycle, identify_improvement_targets, hp]
    · simp [run_cycle, identify_improvement_targets, hp]

/-- Claim C10: the target-selection step returns the empty list for every
performance score, so no cycle of the loop ever retrains a module and the
trainer's registry of trained modules is never modified by the loop. -/
theorem pipeline_never_retrains (p : ℚ) (ev : CycleEvent) (st : PipelineState) :
    identify_improvement_targets p = [] ∧
    (run_cycle ev st).state.trained_modules = st.trained_modules := by
  refine ⟨rfl, ?_⟩
  cases ev with
  | raisesEarly e => rfl
  | raisesLate q e => rfl
  | scores pre post =>
    by_cases hp : post > pre
    · simp [run_cycle, identify_improvement_targets, hp]
    · simp [run_cycle, identify_improvement_targets, hp]

/-- Witness for claim C6 at the concrete all-zero layer oracles. -/
theorem compose_empty_succeeds_witness :
    create_ensemble [] zeroW zeroB zeroW zeroB =
      .ok (EnsembleModel.construct [] zeroW zeroB zeroW zeroB) ∧
    (EnsembleModel.construct [] zeroW zeroB zeroW zeroB).modules = [] ∧
    (EnsembleModel.construct [] zeroW zeroB zeroW zeroB).integration_layer.inF = 0 :=
  compose_empty_succeeds zeroW zeroB zeroW zeroB

/-- Witness for claim C7 at the concrete two-module heap. -/
theorem average_empty_raises_witness :
    federated_averaging twoModuleHeap [] =
      .error (.valueError "No models to average") :=
  average_empty_raises twoModuleHeap

/-- Witness for claim C8 at the concrete scores 0.80 and 0.81 of the
design's deployment scenario. -/
theorem deploy_iff_strict_improvement_witness :
    ((run_cycle (.scores (4/5 : ℚ) (81/100 : ℚ)) emptyPipelineState).phases.contains
      .deploying) = decide ((81/100 : ℚ) > (4/5 : ℚ)) ∧
    ((run_cycle (.raisesEarly (.valueError "boom")) emptyPipelineState).phases.contains
      .deploying) = false ∧
    (∀ q : ℚ, ((run_cycle (.raisesLate q (.valueError "boom"))
      emptyPipelineState).phases.contains .deploying) = false) :=
  deploy_iff_strict_improvement (4/5) (81/100) emptyPipelineState (.valueError "boom")

/-- Witness for claim C9 at a concrete raised exception. -/
theorem loop_error_cooldown_retry_witness :
    (run_cycle (.raisesEarly (.valueError "boom")) emptyPipelineState).slept =
      ERROR_SLEEP_SECONDS ∧
    (run_cycle (.raisesLate 0 (.valueError "boom")) emptyPipelineState).slept =
      ERROR_SLEEP_SECONDS ∧
    (run_cycle (.raisesEarly (.valueError "boom")) emptyPipelineState).log =
      ["Error in training loop: " ++ pyErrorMessage (.valueError "boom")] ∧
    (run_cycle (.raisesLate 0 (.valueError "boom")) emptyPipelineState).log =
      ["Error in training loop: " ++ pyErrorMessage (.valueError "boom")] ∧
    ERROR_SLEEP_SECONDS < CYCLE_SLEEP_SECONDS ∧
    (∀ ev : CycleEvent, (run_cycle ev emptyPipelineState).exits = false) :=
  loop_error_cooldown_retry (.valueError "boom") 0 emptyPipelineState

/-- Witness for claim C10 at a concrete improving cycle. -/
theorem pipeline_never_retrains_witness :
    identify_improvement_targets 0 = [] ∧
    (run_cycle (.scores 0 1) emptyPipelineState).state.trained_modules =
      emptyPipelineState.trained_modules :=
  pipeline_never_retrains 0 (.scores 0 1) emptyPipelineState
